import Mathlib

/-!
Verification of `opentargets/conn.py` (Open Targets REST API client).

The file shallowly embeds the parts of the module that the claims touch:
the response-envelope parser (`Response.__init__`), the parameter
validator (`Connection.validate_parameter`), the GET/POST dispatcher
(`Connection.get` / `Connection._auto_detect_post` /
`Connection._make_request`), and the result-iteration engine
(`IterableResult.__call__`, `filter`, `__next__`, `__getitem__`).

Python JSON values are modelled by the inductive `PyVal`; Python dicts
(whose insertion order is observable) are modelled by association lists
`List (String × α)` with Python's assignment (`setParam`), lookup
(`lookupKey`) and deletion (`eraseKey`) semantics.
-/

/-- A Python/JSON value as handled by `conn.py`: strings, ints, booleans,
lists (also standing for tuples), dicts with insertion-ordered keys, and
`None`/`null`. -/
inductive PyVal where
  | str (s : String)
  | num (n : Int)
  | bool (b : Bool)
  | list (xs : List PyVal)
  | dict (fields : List (String × PyVal))
  | null

/-- Python dict lookup `d[k]` / `d.get(k)` on an insertion-ordered
association list: the value of the first entry whose key is `k`. -/
def lookupKey {α : Type} : List (String × α) → String → Option α
  | [], _ => Option.none
  | (k', v) :: rest, k => if k' = k then some v else lookupKey rest k

/-- Python dict assignment `d[k] = v`: if the key is present its value is
replaced in place (insertion order kept), otherwise the pair is appended
at the end. -/
def setParam {α : Type} : List (String × α) → String → α → List (String × α)
  | [], k, v => [(k, v)]
  | (k', v') :: rest, k, v =>
    if k' = k then (k, v) :: rest else (k', v') :: setParam rest k v

/-- Python dict deletion `del d[k]`: the entry with key `k` is removed,
the other entries keep their order. -/
def eraseKey {α : Type} : List (String × α) → String → List (String × α)
  | [], _ => []
  | (k', v) :: rest, k =>
    if k' = k then eraseKey rest k else (k', v) :: eraseKey rest k

/-- Python truthiness of a JSON value (`if v:`): empty strings, zero,
`False`, empty lists, empty dicts and `None` are falsy. -/
def truthy : PyVal → Bool
  | .str s => !s.isEmpty
  | .num n => n != 0
  | .bool b => b
  | .list xs => !xs.isEmpty
  | .dict fs => !fs.isEmpty
  | .null => false

/-- Python check `isinstance(value, str)` as used by the validator. -/
def isStrVal : PyVal → Bool
  | .str _ => true
  | _ => false

/-- Python check `isinstance(value, bool)` as used by the validator. -/
def isBoolVal : PyVal → Bool
  | .bool _ => true
  | _ => false

/-- Python check `isinstance(value, (int, float))` as used by the validator; note that
in Python a `bool` is an `int`, so booleans satisfy the numeric check. -/
def isNumVal : PyVal → Bool
  | .num _ => true
  | .bool _ => true
  | _ => false

theorem lookupKey_setParam_self {α : Type} (ps : List (String × α)) (k : String) (v : α) :
    lookupKey (setParam ps k v) k = some v := by
  induction ps with
  | nil => simp [setParam, lookupKey]
  | cons p rest ih =>
    obtain ⟨k', v'⟩ := p
    by_cases h : k' = k
    · simp [setParam, lookupKey, h]
    · simp [setParam, lookupKey, h, ih]

theorem lookupKey_setParam_other {α : Type} (ps : List (String × α)) (k k' : String) (v : α)
    (h : k' ≠ k) : lookupKey (setParam ps k v) k' = lookupKey ps k' := by
  induction ps with
  | nil => simp [setParam, lookupKey, Ne.symm h]
  | cons p rest ih =>
    obtain ⟨k₀, v₀⟩ := p
    by_cases h₀ : k₀ = k
    · subst h₀
      simp [setParam, lookupKey, Ne.symm h]
    · by_cases h₁ : k₀ = k'
      · subst h₁
        simp [setParam, lookupKey, h₀]
      · simp [setParam, lookupKey, h₀, h₁, ih]

theorem lookupKey_eraseKey_self {α : Type} (ps : List (String × α)) (k : String) :
    lookupKey (eraseKey ps k) k = Option.none := by
  induction ps with
  | nil => simp [eraseKey, lookupKey]
  | cons p rest ih =>
    obtain ⟨k₀, v₀⟩ := p
    by_cases h : k₀ = k
    · simpa [eraseKey, lookupKey, h] using ih
    · simpa [eraseKey, lookupKey, h] using ih

theorem lookupKey_eraseKey_other {α : Type} (ps : List (String × α)) (k k' : String)
    (h : k' ≠ k) : lookupKey (eraseKey ps k) k' = lookupKey ps k' := by
  induction ps with
  | nil => simp [eraseKey, lookupKey]
  | cons p rest ih =>
    obtain ⟨k₀, v₀⟩ := p
    by_cases h₀ : k₀ = k
    · subst h₀
      simpa [eraseKey, lookupKey, Ne.symm h] using ih
    · by_cases h₁ : k₀ = k'
      · subst h₁
        simp [eraseKey, lookupKey, h₀]
      · simp [eraseKey, lookupKey, h₀, h₁, ih]

/-!
Response envelope parser, from `Response.__init__` (conn.py lines 107-133).
-/

/-- The observable state of a `Response` object: `self.data` (the records)
and `self.info` (the metadata dict, before wrapping in `addict.Dict`). -/
structure Response where
  data : PyVal
  info : List (String × PyVal)

/-- One reserved-name renaming step of `Response.__init__`: when `old` is
present, `parsed[new] = parsed[old]; del parsed[old]` on the mutable dict,
otherwise the dict is untouched. -/
def renameKey (fs : List (String × PyVal)) (old new : String) :
    List (String × PyVal) :=
  match lookupKey fs old with
  | some v => eraseKey (setParam fs new v) old
  | Option.none => fs

/-- The reserved-name renaming performed in `Response.__init__`: `from` is
moved to `from_`, then `next` is moved to `next_`, in that order. -/
def renameReserved (fields : List (String × PyVal)) : List (String × PyVal) :=
  renameKey (renameKey fields "from" "from_") "next" "next_"

/-- Constructor `Response.__init__` on a body that parsed successfully as JSON.
If the parsed value is a dict with a `data` key, `self.data` is that value
as stored (no wrapping) and the key is deleted before the reserved-name
renaming produces `self.info`.  If the dict has no `data` key,
`self.data = [parsed_response]` aliases the dict that is subsequently
mutated by the renaming, so the single record carries the renamed fields,
and `self.info` is the same renamed dict.  A non-dict body becomes
`self.data` verbatim with empty `self.info`. -/
def responseInit (parsed : PyVal) : Response :=
  match parsed with
  | .dict fields =>
    match lookupKey fields "data" with
    | some d => ⟨d, renameReserved (eraseKey fields "data")⟩
    | Option.none =>
      ⟨.list [.dict (renameReserved fields)], renameReserved fields⟩
  | other => ⟨other, []⟩

/-!
Parameter validator, from `Connection.validate_parameter` (conn.py lines
319-342).  The relevant row of `endpoint_validation_data`
(`endpoint_validation_data[endpoint][method]`, a dict from parameter name
to declared swagger type) is passed explicitly.  The function returns
`true` when validation passes and `false` when the code falls through to
`raise AttributeError`.
-/

/-- Method `Connection.validate_parameter` specialised to one endpoint/method
schema row: passes when the parameter is declared `string`/`boolean`/
`number` and the value has the matching Python type; in every other case
— including a parameter name absent from the schema — control falls
through to `raise AttributeError`, modelled as `false`. -/
def validate_parameter (endpointData : List (String × String)) (filter_type : String)
    (value : PyVal) : Bool :=
  match lookupKey endpointData filter_type with
  | some t =>
    if t = "string" then isStrVal value
    else if t = "boolean" then isBoolVal value
    else if t = "number" then isNumVal value
    else false
  | Option.none => false

/-!
Query dispatcher, from `Connection._auto_detect_post`, `Connection.get`,
`Connection.post` and the parameter-canonicalization step of
`Connection._make_request` (conn.py lines 195-287).
-/

/-- Method `Connection._auto_detect_post`: `True` iff some parameter value is a
`list`/`tuple` with more than 3 elements. -/
def auto_detect_post (params : List (String × PyVal)) : Bool :=
  params.any (fun kv =>
    match kv.2 with
    | .list xs => decide (xs.length > 3)
    | _ => false)

/-- The tuple comparison performed by `sorted(params.items())`: with the
distinct keys of a dict the comparison is decided by the key alone. -/
def itemLE (a b : String × PyVal) : Prop := a.1 ≤ b.1

instance : DecidableRel itemLE := fun a b => by
  unfold itemLE
  infer_instance

instance : IsTotal (String × PyVal) itemLE :=
  ⟨fun a b => le_total a.1 b.1⟩

instance : IsTrans (String × PyVal) itemLE :=
  ⟨fun _ _ _ hab hbc => le_trans hab hbc⟩

/-- The `'order params to allow efficient caching'` step of
`Connection._make_request`: `params = sorted(params.items())`. -/
def canonicalizeParams (params : List (String × PyVal)) : List (String × PyVal) :=
  List.insertionSort itemLE params

/-- The request handed to `self.session.request` by
`Connection._make_request`, as far as the claims observe it: HTTP method,
endpoint, canonicalized GET params and POST JSON body. -/
structure HttpRequest where
  method : String
  endpoint : String
  params : List (String × PyVal)
  body : Option (List (String × PyVal))

/-- Method `Connection._make_request` for a GET: params are sorted for caching,
no JSON body is sent. -/
def make_request_get (endpoint : String) (params : List (String × PyVal)) : HttpRequest :=
  ⟨"GET", endpoint, canonicalizeParams params, Option.none⟩

/-- Method `Connection.post` and the `_make_request` POST path: the payload is
forwarded unchanged as the JSON body (`data` is not sorted). -/
def Connection.post (endpoint : String) (data : List (String × PyVal)) : HttpRequest :=
  ⟨"POST", endpoint, [], some data⟩

/-- Method `Connection.get`: auto-upgrades to `post(endpoint, data=params)` when
`_auto_detect_post(params)` fires, else issues the GET. -/
def Connection.get (endpoint : String) (params : List (String × PyVal)) : HttpRequest :=
  if auto_detect_post params then Connection.post endpoint params
  else make_request_get endpoint params

/-- The logical parameter payload a request carries to the server: the
JSON body for a POST, the query params for a GET. -/
def requestPayload (r : HttpRequest) : List (String × PyVal) :=
  match r.body with
  | some d => d
  | Option.none => r.params

/-!
Result-iteration engine, from `IterableResult` (conn.py lines 384-527).

A server is modelled as a function from the request kwargs to the parsed
response used by the engine: `call_output.data` (the records of the page,
a list in every paginated response) and `call_output.info` (the metadata
dict, after the `from`/`next` renaming of `Response.__init__`).
-/

/-- One parsed page as consumed by the engine: `Response.data` as a record
list plus `Response.info`. -/
structure Page where
  data : List PyVal
  info : List (String × PyVal)

/-- A server: what `IterableResult._make_call` returns for given kwargs. -/
def Server : Type := List (String × PyVal) → Page

/-- The mutable state of an `IterableResult`: the unconsumed buffer
`self._data`, the yield counter `self.current`, `self.total`, the stored
continuation cursor `self._search_after_last` (initially `None`) and the
request kwargs `self._kwargs`. -/
structure EngineState where
  data : List PyVal
  current : Nat
  total : Nat
  searchAfterLast : Option PyVal
  kwargs : List (String × PyVal)

/-- Conversion `int(self.info.total)` in `IterableResult.__call__`: succeeds on an
int, a bool, or a string holding an integer literal; any other value (or a
missing key, where `addict` yields an empty `Dict`) raises and is caught
by the bare `except`. -/
def infoTotal (info : List (String × PyVal)) : Option Int :=
  match lookupKey info "total" with
  | some (.num n) => some n
  | some (.bool b) => some (if b then 1 else 0)
  | some (.str s) => s.toInt?
  | _ => Option.none

/-- Truthiness of `self._search_after_last` (`if self._search_after_last:`
in `__next__`): `None` is falsy, a stored value is as truthy as the value. -/
def cursorTruthy : Option PyVal → Bool
  | Option.none => false
  | some v => truthy v

/-- Method `IterableResult.__call__`: issues the first dispatch with the given
kwargs, stores the page as the buffer, overwrites the stored cursor only
when the response carries a `next_` field, resets `current` to 0, takes
`total` from the response metadata when it parses as an int (injecting the
bulk `size=1000` into the kwargs when the response mentions `size` and the
caller did not), else falls back to the page length. -/
def callInvoke (server : Server) (s : EngineState)
    (kwargs : List (String × PyVal)) : EngineState :=
  let resp := server kwargs
  let cursor := match lookupKey resp.info "next_" with
    | some v => some v
    | Option.none => s.searchAfterLast
  match infoTotal resp.info with
  | some n =>
    let kw := if ((lookupKey resp.info "size").isSome
                  && !(lookupKey kwargs "size").isSome)
              then setParam kwargs "size" (.num 1000) else kwargs
    ⟨resp.data, 0, n.toNat, cursor, kw⟩
  | Option.none =>
    ⟨resp.data, 0, resp.data.length, cursor, kwargs⟩

/-- The continuation kwargs built by `IterableResult.__next__` before
re-dispatching: cursor branch sets `from=0` and `next=<cursor>`, offset
branch sets `from=current`; both then force `no_cache='true'` and
`size=1000`. -/
def continuationKwargs (s : EngineState) : List (String × PyVal) :=
  let ps := match s.searchAfterLast with
    | some v =>
      if truthy v then setParam (setParam s.kwargs "from" (.num 0)) "next" v
      else setParam s.kwargs "from" (.num (s.current : Int))
    | Option.none => setParam s.kwargs "from" (.num (s.current : Int))
  setParam (setParam ps "no_cache" (.str "true")) "size" (.num 1000)

/-- Method `IterableResult.__next__`: yields the next record and successor state,
or `none` for `StopIteration`.  When `current < total` and the buffer is
empty it re-dispatches with `continuationKwargs`; an empty page stops the
iteration; otherwise the cursor is refreshed when the page carries
`next_`, and the front record of the (possibly refilled) buffer is popped
with `current` incremented. -/
def iterNext (server : Server) (s : EngineState) : Option (PyVal × EngineState) :=
  if s.current < s.total then
    match s.data with
    | [] =>
      let req := continuationKwargs s
      let page := server req
      match page.data with
      | [] => Option.none
      | d :: rest =>
        let cursor := match lookupKey page.info "next_" with
          | some v => some v
          | Option.none => s.searchAfterLast
        some (d, ⟨rest, s.current + 1, s.total, cursor, req⟩)
    | d :: rest =>
      some (d, ⟨rest, s.current + 1, s.total, s.searchAfterLast, s.kwargs⟩)
  else Option.none

/-- Runs the iterator for at most `fuel` steps, returning the yielded
records and the final state. -/
def runIter (server : Server) : Nat → EngineState → List PyVal × EngineState
  | 0, s => ([], s)
  | fuel + 1, s =>
    match iterNext server s with
    | Option.none => ([], s)
    | some (d, s') =>
      let r := runIter server fuel s'
      (d :: r.1, r.2)

/-- Iteration to exhaustion: `total - current` steps always suffice, since
every yield increments `current` towards the fixed `total`. -/
def runAll (server : Server) (s : EngineState) : List PyVal × EngineState :=
  runIter server (s.total - s.current) s

/-- Method `IterableResult.filter`: walks the new filters in order, validating
each one and merging it into `self._kwargs` before looking at the next;
returns the kwargs state at exit together with `true` when the loop
completed (and the re-invoking network call is reached) or `false` when a
validation failure raised out of the loop. -/
def filterCall (validate : String → PyVal → Bool)
    (kwargs : List (String × PyVal)) :
    List (String × PyVal) → List (String × PyVal) × Bool
  | [] => (kwargs, true)
  | (k, v) :: rest =>
    if validate k v then filterCall validate (setParam kwargs k v) rest
    else (kwargs, false)

/-- Method `IterableResult.__getitem__` with an integer index, i.e.
`next(islice(self, x, None), None)`: consume and discard `k` records, then
return the next one, or `None` once the iterator is exhausted.  The fuel
bounds the number of `__next__` calls; `total - current` is always enough. -/
def getItemAux (server : Server) : Nat → Nat → EngineState → Option PyVal
  | 0, _, _ => Option.none
  | fuel + 1, k, s =>
    match iterNext server s with
    | Option.none => Option.none
    | some (d, s') =>
      match k with
      | 0 => some d
      | k' + 1 => getItemAux server fuel k' s'

/-- Indexing `result[k]` for an integer `k`. -/
def getItem (server : Server) (s : EngineState) (k : Nat) : Option PyVal :=
  getItemAux server (s.total - s.current) k s

/-!
Helper lemmas.
-/

/-- Two key-sorted association lists with duplicate-free keys that are
permutations of each other are equal: the sort of a dict's items is
determined by its key-value set. -/
theorem eq_of_perm_of_keySorted :
    ∀ (l1 l2 : List (String × PyVal)), l1.Perm l2 →
      (l1.map Prod.fst).Nodup → l1.Sorted itemLE → l2.Sorted itemLE → l1 = l2 := by
  intro l1
  induction l1 with
  | nil =>
    intro l2 hp _ _ _
    exact (hp.symm.eq_nil).symm
  | cons a t1 ih =>
    intro l2 hp hnd hs1 hs2
    cases l2 with
    | nil => simpa using hp.eq_nil
    | cons b t2 =>
      by_cases hab : a = b
      · subst hab
        have ht : t1.Perm t2 := hp.cons_inv
        have := ih t2 ht (by simpa using hnd.of_cons) hs1.of_cons hs2.of_cons
        rw [this]
      · exfalso
        have ha2 : a ∈ t2 := by
          have : a ∈ b :: t2 := hp.mem_iff.mp (by simp)
          simpa [hab] using this
        have hb1 : b ∈ t1 := by
          have : b ∈ a :: t1 := hp.symm.mem_iff.mp (by simp)
          simpa [Ne.symm hab] using this
        have hab1 : a.1 ≤ b.1 := List.rel_of_sorted_cons hs1 b hb1
        have hba1 : b.1 ≤ a.1 := List.rel_of_sorted_cons hs2 a ha2
        have hkey : a.1 = b.1 := le_antisymm hab1 hba1
        have : a.1 ∈ t1.map Prod.fst := by
          rw [hkey]
          exact List.mem_map_of_mem Prod.fst hb1
        exact (List.nodup_cons.mp hnd).1 this

/-- Predicate `auto_detect_post` fires exactly when some parameter value is a
list/tuple of more than 3 elements. -/
theorem auto_detect_post_iff (params : List (String × PyVal)) :
    auto_detect_post params = true ↔
      ∃ k xs, (k, PyVal.list xs) ∈ params ∧ 3 < xs.length := by
  unfold auto_detect_post
  rw [List.any_eq_true]
  constructor
  · rintro ⟨⟨k, v⟩, hmem, hv⟩
    cases v with
    | list xs => exact ⟨k, xs, hmem, by simpa using hv⟩
    | str s => simp at hv
    | num n => simp at hv
    | bool b => simp at hv
    | dict fs => simp at hv
    | null => simp at hv
  · rintro ⟨k, xs, hmem, hlen⟩
    exact ⟨(k, PyVal.list xs), hmem, by simpa using hlen⟩

/-- Indexing through `getItemAux` (the `islice` consumption) agrees with
indexing the sequence the iterator would yield with the same fuel. -/
theorem getItemAux_eq_get? (server : Server) :
    ∀ (fuel k : Nat) (s : EngineState),
      getItemAux server fuel k s = (runIter server fuel s).1.get? k := by
  intro fuel
  induction fuel with
  | zero => intro k s; simp [getItemAux, runIter]
  | succ n ih =>
    intro k s
    cases hstep : iterNext server s with
    | none => simp [getItemAux, runIter, hstep]
    | some ds =>
      obtain ⟨d, s'⟩ := ds
      cases k with
      | zero => simp [getItemAux, runIter, hstep]
      | succ k' => simp [getItemAux, runIter, hstep, ih]

/-- C5 (corrected): a parameter name that is absent from the endpoint's
validation schema makes `validate_parameter` fall through to
`raise AttributeError` — there is no permissive pass for unknown names. -/
theorem validate_parameter_unknown_fails (ed : List (String × String))
    (k : String) (v : PyVal) (h : lookupKey ed k = Option.none) :
    validate_parameter ed k v = false := by
  simp [validate_parameter, h]

/-- C5 witness: the schema row declares only `size`, and the unknown
parameter `foo` is rejected. -/
theorem validate_parameter_unknown_fails_witness :
    lookupKey [("size", "number")] "foo" = (Option.none : Option String)
    ∧ validate_parameter [("size", "number")] "foo" (.str "x") = false :=
  ⟨by rfl, validate_parameter_unknown_fails [("size", "number")] "foo" (.str "x") (by rfl)⟩

/-- C5 counterexample: the claim predicts that validation of the unknown
parameter `foo` for a schema that only declares `size` succeeds silently;
the code raises `AttributeError` instead (`validate_parameter` returns
`false`, the fall-through-to-raise outcome). -/
theorem validate_parameter_unknown_cex :
    validate_parameter [("size", "number")] "foo" (.str "x") = false
    ∧ lookupKey [("size", "number")] "foo" = (Option.none : Option String) := by
  exact ⟨by rfl, by rfl⟩

/-- C7: two GET requests to the same endpoint whose parameter dicts hold
the same key-value pairs (a permutation, with the duplicate-free keys of a
Python dict), in whatever insertion order, are canonicalized by the
key-sort of `_make_request` to the identical request. -/
theorem make_request_order_independent (endpoint : String)
    (ps1 ps2 : List (String × PyVal)) (hperm : ps1.Perm ps2)
    (hnd : (ps1.map Prod.fst).Nodup) :
    make_request_get endpoint ps1 = make_request_get endpoint ps2 := by
  unfold make_request_get
  have hcanon : canonicalizeParams ps1 = canonicalizeParams ps2 := by
    apply eq_of_perm_of_keySorted
    · exact ((List.perm_insertionSort itemLE ps1).trans hperm).trans
        (List.perm_insertionSort itemLE ps2).symm
    · exact ((List.perm_insertionSort itemLE ps1).map Prod.fst).nodup_iff.mpr hnd
    · exact List.sorted_insertionSort itemLE ps1
    · exact List.sorted_insertionSort itemLE ps2
  rw [hcanon]

/-- C7 witness: the same two parameters supplied in opposite orders give
the identical canonicalized GET request. -/
theorem make_request_order_independent_witness :
    make_request_get "/search" [("b", .str "2"), ("a", .str "1")]
      = make_request_get "/search" [("a", .str "1"), ("b", .str "2")] :=
  make_request_order_independent "/search" _ _
    (List.Perm.swap ("a", PyVal.str "1") ("b", PyVal.str "2") [])
    (by simp)

/-- C8: `Connection.get` dispatches as a POST exactly when some parameter
value is a list/tuple longer than 3 elements, and in every case the
logical parameter payload carried by the request is the caller's
parameter set (the GET branch merely reorders it by the cache-key sort,
the POST branch forwards it verbatim as the body). -/
theorem get_auto_upgrade (endpoint : String) (params : List (String × PyVal)) :
    ((Connection.get endpoint params).method = "POST" ↔
      ∃ k xs, (k, PyVal.list xs) ∈ params ∧ 3 < xs.length)
    ∧ (requestPayload (Connection.get endpoint params)).Perm params
    ∧ ((Connection.get endpoint params).method = "POST" →
        (Connection.get endpoint params).body = some params) := by
  by_cases h : auto_detect_post params = true
  · refine ⟨?_, ?_, ?_⟩
    · simp only [Connection.get, h, if_true, Connection.post]
      simpa using (auto_detect_post_iff params).mp h
    · simp [Connection.get, h, Connection.post, requestPayload]
    · intro _
      simp [Connection.get, h, Connection.post]
  · have hgetm : (Connection.get endpoint params).method = "GET" := by
      simp [Connection.get, h, make_request_get]
    refine ⟨?_, ?_, ?_⟩
    · rw [hgetm]
      constructor
      · intro hc
        exact absurd hc (by simp)
      · intro hex
        exact absurd ((auto_detect_post_iff params).mpr hex) h
    · simp only [Connection.get, h, if_false, Bool.false_eq_true,
        make_request_get, requestPayload]
      exact List.perm_insertionSort itemLE params
    · intro hc
      rw [hgetm] at hc
      exact absurd hc (by simp)



/-- After `renameKey` the old key is gone (it is either erased or was
absent in the first place). -/
theorem lookupKey_renameKey_old (fs : List (String × PyVal)) (old new : String) :
    lookupKey (renameKey fs old new) old = Option.none := by
  unfold renameKey
  cases h : lookupKey fs old with
  | none => exact h
  | some v => exact lookupKey_eraseKey_self _ _

/-- Lemma: `renameKey` moves the value of the old key onto the new key. -/
theorem lookupKey_renameKey_new (fs : List (String × PyVal)) (old new : String)
    (v : PyVal) (hne : new ≠ old) (h : lookupKey fs old = some v) :
    lookupKey (renameKey fs old new) new = some v := by
  unfold renameKey
  rw [h, lookupKey_eraseKey_other _ _ _ hne]
  exact lookupKey_setParam_self _ _ _

/-- Lemma: `renameKey` is the identity when the old key is absent. -/
theorem renameKey_of_absent (fs : List (String × PyVal)) (old new : String)
    (h : lookupKey fs old = Option.none) : renameKey fs old new = fs := by
  unfold renameKey
  rw [h]

/-- Lemma: `renameKey` does not touch other keys. -/
theorem lookupKey_renameKey_other (fs : List (String × PyVal)) (old new k : String)
    (ho : k ≠ old) (hn : k ≠ new) :
    lookupKey (renameKey fs old new) k = lookupKey fs k := by
  unfold renameKey
  cases h : lookupKey fs old with
  | none => rfl
  | some v => rw [lookupKey_eraseKey_other _ _ _ ho, lookupKey_setParam_other _ _ _ _ hn]

/-- After the reserved-name renaming no `from` key survives. -/
theorem renameReserved_from_absent (fs : List (String × PyVal)) :
    lookupKey (renameReserved fs) "from" = Option.none := by
  unfold renameReserved
  rw [lookupKey_renameKey_other _ _ _ _ (by decide) (by decide)]
  exact lookupKey_renameKey_old _ _ _

/-- After the reserved-name renaming no `next` key survives. -/
theorem renameReserved_next_absent (fs : List (String × PyVal)) :
    lookupKey (renameReserved fs) "next" = Option.none := by
  unfold renameReserved
  exact lookupKey_renameKey_old _ _ _

/-- The value of a `from` field is moved to `from_` by the renaming. -/
theorem renameReserved_from_moved (fs : List (String × PyVal)) (v : PyVal)
    (h : lookupKey fs "from" = some v) :
    lookupKey (renameReserved fs) "from_" = some v := by
  unfold renameReserved
  rw [lookupKey_renameKey_other _ _ _ _ (by decide) (by decide)]
  exact lookupKey_renameKey_new _ _ _ _ (by decide) h

/-- The value of a `next` field is moved to `next_` by the renaming. -/
theorem renameReserved_next_moved (fs : List (String × PyVal)) (v : PyVal)
    (h : lookupKey fs "next" = some v) :
    lookupKey (renameReserved fs) "next_" = some v := by
  unfold renameReserved
  apply lookupKey_renameKey_new _ _ _ _ (by decide)
  rw [lookupKey_renameKey_other _ _ _ _ (by decide) (by decide)]
  exact h

/-- Keys other than `from`, `from_`, `next`, `next_` are untouched by the
renaming. -/
theorem renameReserved_other (fs : List (String × PyVal)) (k : String)
    (hf : k ≠ "from") (hf' : k ≠ "from_") (hn : k ≠ "next") (hn' : k ≠ "next_") :
    lookupKey (renameReserved fs) k = lookupKey fs k := by
  unfold renameReserved
  rw [lookupKey_renameKey_other _ _ _ _ hn hn',
    lookupKey_renameKey_other _ _ _ _ hf hf']

/-- C9 counterexample: for the body `\x7b"total": 5\x7d` (a structured
object without `data`) the claim predicts empty metadata, but
`Response.__init__` stores the whole (renamed) object as `self.info`:
the metadata still carries the `total` field. -/
theorem response_nodata_metadata_cex :
    (responseInit (.dict [("total", .num 5)])).info = [("total", PyVal.num 5)]
    ∧ lookupKey [("total", PyVal.num 5)] "total" ≠ (Option.none : Option PyVal) := by
  constructor
  · rfl
  · simp [lookupKey]

/-- C9 (amended): with a `data` key the records are that value exactly as
received (a non-list value is not wrapped into a one-element sequence),
and the metadata is the remaining fields with `from` moved to `from_` and
`next` moved to `next_`; without a `data` key the records are the
one-element list holding the whole object (sharing the renamed fields by
aliasing) and the metadata is that same renamed object — not empty. -/
theorem response_envelope_parse (fields : List (String × PyVal)) :
    (∀ d, lookupKey fields "data" = some d →
      (responseInit (.dict fields)).data = d
      ∧ (responseInit (.dict fields)).info = renameReserved (eraseKey fields "data"))
    ∧ (lookupKey fields "data" = Option.none →
      (responseInit (.dict fields)).data = .list [.dict (renameReserved fields)]
      ∧ (responseInit (.dict fields)).info = renameReserved fields)
    ∧ lookupKey (responseInit (.dict fields)).info "from" = Option.none
    ∧ lookupKey (responseInit (.dict fields)).info "next" = Option.none
    ∧ (∀ v, lookupKey fields "data" = Option.none →
        lookupKey fields "from" = some v →
        lookupKey (responseInit (.dict fields)).info "from_" = some v)
    ∧ (∀ v, lookupKey fields "data" = Option.none →
        lookupKey fields "next" = some v →
        lookupKey (responseInit (.dict fields)).info "next_" = some v)
    ∧ (∀ v k, lookupKey fields "data" = Option.none →
        k ≠ "from" → k ≠ "from_" → k ≠ "next" → k ≠ "next_" →
        lookupKey fields k = some v →
        lookupKey (responseInit (.dict fields)).info k = some v) := by
  refine ⟨?_, ?_, ?_, ?_, ?_, ?_, ?_⟩
  · intro d hd
    simp [responseInit, hd]
  · intro hd
    simp [responseInit, hd]
  · cases hd : lookupKey fields "data" with
    | none =>
      simp only [responseInit, hd]
      exact renameReserved_from_absent _
    | some d =>
      simp only [responseInit, hd]
      exact renameReserved_from_absent _
  · cases hd : lookupKey fields "data" with
    | none =>
      simp only [responseInit, hd]
      exact renameReserved_next_absent _
    | some d =>
      simp only [responseInit, hd]
      exact renameReserved_next_absent _
  · intro v hd hv
    simp only [responseInit, hd]
    exact renameReserved_from_moved _ _ hv
  · intro v hd hv
    simp only [responseInit, hd]
    exact renameReserved_next_moved _ _ hv
  · intro v k hd hf hf' hn hn' hv
    simp only [responseInit, hd]
    rw [renameReserved_other _ _ hf hf' hn hn']
    exact hv

/-- C9 witness: a concrete page envelope with `data`, `total`, `from` and
`next` fields is parsed with unwrapped records, renamed cursors and the
other metadata intact. -/
theorem response_envelope_parse_witness :
    (responseInit (.dict [("data", .list [.num 1]), ("total", .num 5),
        ("from", .num 0), ("next", .str "abc")])).data = PyVal.list [.num 1]
    ∧ (responseInit (.dict [("total", .num 5), ("from", .num 0),
        ("next", .str "abc")])).data
      = PyVal.list [.dict (renameReserved
          [("total", .num 5), ("from", .num 0), ("next", .str "abc")])]
    ∧ lookupKey (responseInit (.dict [("total", .num 5), ("from", .num 0),
        ("next", .str "abc")])).info "from_" = some (PyVal.num 0)
    ∧ lookupKey (responseInit (.dict [("total", .num 5), ("from", .num 0),
        ("next", .str "abc")])).info "next_" = some (PyVal.str "abc")
    ∧ lookupKey (responseInit (.dict [("total", .num 5), ("from", .num 0),
        ("next", .str "abc")])).info "total" = some (PyVal.num 5) := by
  refine ⟨((response_envelope_parse _).1 _ (by rfl)).1,
    ((response_envelope_parse _).2.1 (by rfl)).1,
    (response_envelope_parse _).2.2.2.2.1 _ (by rfl) (by rfl),
    (response_envelope_parse _).2.2.2.2.2.1 _ (by rfl) (by rfl),
    (response_envelope_parse _).2.2.2.2.2.2 _ _ (by rfl) (by decide) (by decide)
      (by decide) (by decide) (by rfl)⟩

/-- C4 counterexample: `filter(a='x', b=3)` against a schema declaring
both `a` and `b` as `string` validates `a`, merges it into
`self._kwargs`, and only then raises on `b` — the engine's parameter set
is left holding the earlier filter, not unchanged as the claim states
(the `false` component records that the loop raised before the
re-invoking network call). -/
theorem filter_partial_mutation_cex :
    filterCall (validate_parameter [("a", "string"), ("b", "string")]) []
        [("a", .str "x"), ("b", .num 3)]
      = ([("a", PyVal.str "x")], false)
    ∧ ([("a", PyVal.str "x")] : List (String × PyVal)) ≠ [] := by
  constructor
  · rfl
  · simp

/-- C4 (amended): when a filter in the batch fails validation, the
`AttributeError` is raised before any network call (`filter` never
reaches the re-invoking `__call__`), but the filters validated before the
failing one have already been merged into `self._kwargs`; only the
failing filter and those after it are left unapplied. -/
theorem filter_fail_fast_prefix (ed : List (String × String))
    (kwargs pre : List (String × PyVal)) (k : String) (v : PyVal)
    (post : List (String × PyVal))
    (hpre : ∀ p ∈ pre, validate_parameter ed p.1 p.2 = true)
    (hfail : validate_parameter ed k v = false) :
    filterCall (validate_parameter ed) kwargs (pre ++ (k, v) :: post)
      = (pre.foldl (fun acc p => setParam acc p.1 p.2) kwargs, false) := by
  induction pre generalizing kwargs with
  | nil => simp [filterCall, hfail]
  | cons p rest ih =>
    obtain ⟨k₀, v₀⟩ := p
    have h₀ : validate_parameter ed k₀ v₀ = true := hpre (k₀, v₀) (by simp)
    simp only [List.cons_append, filterCall, h₀, if_true, List.foldl_cons]
    exact ih (setParam kwargs k₀ v₀) (fun q hq => hpre q (by simp [hq]))

/-- C4 witness: the amended statement at the counterexample input — the
valid `a` filter is merged, the invalid `b` raises before the call. -/
theorem filter_fail_fast_prefix_witness :
    filterCall (validate_parameter [("a", "string"), ("b", "string")]) []
        [("a", .str "x"), ("b", .num 3)]
      = ([("a", PyVal.str "x")], false) := by
  have h := filter_fail_fast_prefix [("a", "string"), ("b", "string")] []
    [("a", PyVal.str "x")] "b" (PyVal.num 3) []
    (by intro p hp; simp at hp; rw [hp]; rfl) (by rfl)
  simpa using h

/-- C6 counterexample: re-invoking the engine while it holds the cursor
`"abc"` against a first response that carries no `next_` field leaves the
stale cursor in place — it is not discarded as the claim states. -/
theorem callInvoke_stale_cursor_cex :
    (callInvoke (fun _ => ⟨[.num 1], [("total", .num 1)]⟩)
        ⟨[], 3, 3, some (.str "abc"), []⟩ []).searchAfterLast
      = some (PyVal.str "abc")
    ∧ some (PyVal.str "abc") ≠ (Option.none : Option PyVal) := by
  constructor
  · rfl
  · simp

/-- C6 (amended): re-invoking the same engine resets `current` to 0 and
replaces buffer and totals from the new first response, so iteration
restarts from the beginning; the continuation cursor, however, is only
overwritten when the new response carries a `next_` field — a cursor
captured during a previous iteration is retained otherwise. -/
theorem callInvoke_restart (server : Server) (s : EngineState)
    (kwargs : List (String × PyVal)) :
    (callInvoke server s kwargs).current = 0
    ∧ (callInvoke server s kwargs).data = (server kwargs).data
    ∧ (lookupKey (server kwargs).info "next_" = Option.none →
        (callInvoke server s kwargs).searchAfterLast = s.searchAfterLast)
    ∧ (∀ v, lookupKey (server kwargs).info "next_" = some v →
        (callInvoke server s kwargs).searchAfterLast = some v) := by
  cases hn : lookupKey (server kwargs).info "next_" with
  | none =>
    cases ht : infoTotal (server kwargs).info with
    | none => refine ⟨?_, ?_, ?_, ?_⟩ <;> simp [callInvoke, hn, ht]
    | some n => refine ⟨?_, ?_, ?_, ?_⟩ <;> simp [callInvoke, hn, ht]
  | some w =>
    cases ht : infoTotal (server kwargs).info with
    | none => refine ⟨?_, ?_, ?_, ?_⟩ <;> simp [callInvoke, hn, ht]
    | some n => refine ⟨?_, ?_, ?_, ?_⟩ <;> simp [callInvoke, hn, ht]

/-- C6 witness: the amended statement at concrete inputs — `current`
resets to 0 and a response carrying `next_` overwrites the stored cursor. -/
theorem callInvoke_restart_witness :
    (callInvoke (fun _ => ⟨[.num 1], [("total", .num 1), ("next_", .str "t2")]⟩)
        ⟨[], 3, 3, some (.str "t1"), []⟩ []).current = 0
    ∧ (callInvoke (fun _ => ⟨[.num 1], [("total", .num 1), ("next_", .str "t2")]⟩)
        ⟨[], 3, 3, some (.str "t1"), []⟩ []).searchAfterLast = some (PyVal.str "t2") :=
  ⟨(callInvoke_restart (fun _ => ⟨[.num 1], [("total", .num 1), ("next_", .str "t2")]⟩)
      ⟨[], 3, 3, some (.str "t1"), []⟩ []).1,
    (callInvoke_restart (fun _ => ⟨[.num 1], [("total", .num 1), ("next_", .str "t2")]⟩)
      ⟨[], 3, 3, some (.str "t1"), []⟩ []).2.2.2 (PyVal.str "t2") (by rfl)⟩

/-- C2: whenever the engine must fetch a continuation page (empty buffer,
`current < total`), the request it issues is `continuationKwargs`: with a
truthy stored cursor it carries `from=0` and the cursor under `next`;
with no (or a falsy) stored cursor it carries `from=current`; and in both
cases it carries `no_cache='true'` and the bulk page size `size=1000`.
The last conjunct ties the kwargs to `__next__`: the state after a
successful continuation fetch records exactly these kwargs. -/
theorem continuation_request_spec (s : EngineState) :
    (∀ v, s.searchAfterLast = some v → truthy v = true →
      lookupKey (continuationKwargs s) "from" = some (.num 0)
      ∧ lookupKey (continuationKwargs s) "next" = some v)
    ∧ (cursorTruthy s.searchAfterLast = false →
      lookupKey (continuationKwargs s) "from" = some (.num (s.current : Int)))
    ∧ lookupKey (continuationKwargs s) "no_cache" = some (.str "true")
    ∧ lookupKey (continuationKwargs s) "size" = some (.num 1000)
    ∧ (∀ (server : Server) (d : PyVal) (rest : List PyVal),
        s.data = [] → s.current < s.total →
        (server (continuationKwargs s)).data = d :: rest →
        ∃ s', iterNext server s = some (d, s')
          ∧ s'.kwargs = continuationKwargs s) := by
  refine ⟨?_, ?_, ?_, ?_, ?_⟩
  · intro v hv htv
    have hck : continuationKwargs s
        = setParam (setParam (setParam (setParam s.kwargs "from" (.num 0))
            "next" v) "no_cache" (.str "true")) "size" (.num 1000) := by
      simp [continuationKwargs, hv, htv]
    rw [hck]
    constructor
    · rw [lookupKey_setParam_other _ _ _ _ (by decide),
        lookupKey_setParam_other _ _ _ _ (by decide),
        lookupKey_setParam_other _ _ _ _ (by decide)]
      exact lookupKey_setParam_self _ _ _
    · rw [lookupKey_setParam_other _ _ _ _ (by decide),
        lookupKey_setParam_other _ _ _ _ (by decide)]
      exact lookupKey_setParam_self _ _ _
  · intro hct
    have hck : continuationKwargs s
        = setParam (setParam (setParam s.kwargs "from" (.num (s.current : Int)))
            "no_cache" (.str "true")) "size" (.num 1000) := by
      cases hsal : s.searchAfterLast with
      | none => simp [continuationKwargs, hsal]
      | some v =>
        have htv : truthy v = false := by
          rw [hsal] at hct
          simpa [cursorTruthy] using hct
        simp [continuationKwargs, hsal, htv]
    rw [hck]
    rw [lookupKey_setParam_other _ _ _ _ (by decide),
      lookupKey_setParam_other _ _ _ _ (by decide)]
    exact lookupKey_setParam_self _ _ _
  · show lookupKey (continuationKwargs s) "no_cache" = some (.str "true")
    unfold continuationKwargs
    rw [lookupKey_setParam_other _ _ _ _ (by decide)]
    exact lookupKey_setParam_self _ _ _
  · unfold continuationKwargs
    exact lookupKey_setParam_self _ _ _
  · intro server d rest hdata hlt hp
    refine ⟨⟨rest, s.current + 1, s.total,
      match lookupKey (server (continuationKwargs s)).info "next_" with
      | some v => some v
      | Option.none => s.searchAfterLast, continuationKwargs s⟩, ?_, rfl⟩
    simp [iterNext, hlt, hdata, hp]

/-- C2 witness: with stored cursor `"abc"` the continuation request has
`from=0` and `next="abc"`; with no stored cursor it has `from=current`;
both carry `no_cache` and the bulk size. -/
theorem continuation_request_spec_witness :
    lookupKey (continuationKwargs ⟨[], 2, 5, some (.str "abc"), []⟩) "from"
      = some (PyVal.num 0)
    ∧ lookupKey (continuationKwargs ⟨[], 2, 5, some (.str "abc"), []⟩) "next"
      = some (PyVal.str "abc")
    ∧ lookupKey (continuationKwargs ⟨[], 2, 5, Option.none, []⟩) "from"
      = some (PyVal.num 2)
    ∧ lookupKey (continuationKwargs ⟨[], 2, 5, some (.str "abc"), []⟩) "no_cache"
      = some (PyVal.str "true")
    ∧ lookupKey (continuationKwargs ⟨[], 2, 5, some (.str "abc"), []⟩) "size"
      = some (PyVal.num 1000)
    ∧ ∃ s', iterNext (fun _ => ⟨[.num 9], []⟩) ⟨[], 2, 5, some (.str "abc"), []⟩
          = some (PyVal.num 9, s')
        ∧ s'.kwargs = continuationKwargs ⟨[], 2, 5, some (.str "abc"), []⟩ :=
  ⟨((continuation_request_spec ⟨[], 2, 5, some (.str "abc"), []⟩).1
      (PyVal.str "abc") rfl (by rfl)).1,
    ((continuation_request_spec ⟨[], 2, 5, some (.str "abc"), []⟩).1
      (PyVal.str "abc") rfl (by rfl)).2,
    (continuation_request_spec ⟨[], 2, 5, Option.none, []⟩).2.1 (by rfl),
    (continuation_request_spec ⟨[], 2, 5, some (.str "abc"), []⟩).2.2.1,
    (continuation_request_spec ⟨[], 2, 5, some (.str "abc"), []⟩).2.2.2.1,
    (continuation_request_spec ⟨[], 2, 5, some (.str "abc"), []⟩).2.2.2.2
      (fun _ => ⟨[.num 9], []⟩) (PyVal.num 9) [] rfl (by decide) rfl⟩

/-- C3: if a continuation fetch (empty buffer, `current < total`) returns
a page with no records, `__next__` signals end-of-sequence immediately
(the model's `none`, i.e. Python's `raise StopIteration`) — no error is
raised and no further fetch happens, whatever `total` still promised. -/
theorem empty_page_stops (server : Server) (s : EngineState)
    (hbuf : s.data = []) (hlt : s.current < s.total)
    (hempty : (server (continuationKwargs s)).data = []) :
    iterNext server s = Option.none := by
  simp [iterNext, hlt, hbuf, hempty]

/-- C3 witness: a server announcing `total=5` but serving an empty page
stops the iteration at once. -/
theorem empty_page_stops_witness :
    iterNext (fun _ => ⟨[], []⟩) ⟨[], 0, 5, Option.none, []⟩ = Option.none :=
  empty_page_stops (fun _ => ⟨[], []⟩) ⟨[], 0, 5, Option.none, []⟩ rfl
    (by decide) rfl

/-- As long as `current < total` and the server serves non-empty pages,
`__next__` yields a record and advances `current` by one under the
unchanged `total`. -/
theorem iterNext_yield (server : Server) (s : EngineState)
    (hlt : s.current < s.total)
    (hne : s.data = [] → (server (continuationKwargs s)).data ≠ []) :
    ∃ d s', iterNext server s = some (d, s')
      ∧ s'.current = s.current + 1 ∧ s'.total = s.total := by
  cases hd : s.data with
  | nil =>
    cases hp : (server (continuationKwargs s)).data with
    | nil => exact absurd hp (hne hd)
    | cons d ds =>
      refine ⟨d, ⟨ds, s.current + 1, s.total,
        match lookupKey (server (continuationKwargs s)).info "next_" with
        | some v => some v
        | Option.none => s.searchAfterLast, continuationKwargs s⟩, ?_, rfl, rfl⟩
      simp [iterNext, hlt, hd, hp]
  | cons d ds =>
    refine ⟨d, ⟨ds, s.current + 1, s.total, s.searchAfterLast, s.kwargs⟩,
      ?_, rfl, rfl⟩
    simp [iterNext, hlt, hd]

/-- Against a server that always returns non-empty pages, running the
iterator with fuel `total - current` yields exactly that many records and
ends with `current` equal to the (unchanged) `total`. -/
theorem runIter_complete (server : Server)
    (hne : ∀ ps, (server ps).data ≠ []) :
    ∀ (fuel : Nat) (s : EngineState), fuel = s.total - s.current →
      s.current ≤ s.total →
      (runIter server fuel s).1.length = fuel
      ∧ (runIter server fuel s).2.current = s.total
      ∧ (runIter server fuel s).2.total = s.total := by
  intro fuel
  induction fuel with
  | zero =>
    intro s hf hle
    have heq : s.current = s.total := by omega
    simp [runIter, heq]
  | succ n ih =>
    intro s hf hle
    have hlt : s.current < s.total := by omega
    obtain ⟨d, s', hstep, hc, ht⟩ := iterNext_yield server s hlt (fun _ => hne _)
    obtain ⟨hl, hcur, htot⟩ := ih s' (by omega) (by omega)
    simp [runIter, hstep, hl, hcur, htot, ht]

/-- C1: after a first invocation whose response announces `total = N`,
iterating the engine to exhaustion against a server that keeps serving
non-empty pages yields exactly `N` records, and at exhaustion the
engine's `current` equals its `total` (both `N`). -/
theorem iteration_yields_total (server : Server) (s0 : EngineState)
    (kwargs : List (String × PyVal)) (N : Nat)
    (hne : ∀ ps, (server ps).data ≠ [])
    (htot : infoTotal (server kwargs).info = some (N : Int)) :
    (runAll server (callInvoke server s0 kwargs)).1.length = N
    ∧ (runAll server (callInvoke server s0 kwargs)).2.current = N
    ∧ (runAll server (callInvoke server s0 kwargs)).2.total = N := by
  have h1 : (callInvoke server s0 kwargs).current = 0 := by
    simp [callInvoke, htot]
  have h2 : (callInvoke server s0 kwargs).total = N := by
    simp [callInvoke, htot]
  obtain ⟨hl, hc, ht⟩ := runIter_complete server hne
    ((callInvoke server s0 kwargs).total - (callInvoke server s0 kwargs).current)
    (callInvoke server s0 kwargs) rfl (by rw [h1]; exact Nat.zero_le _)
  unfold runAll
  refine ⟨?_, ?_, ?_⟩
  · rw [hl, h1, h2]
    exact Nat.sub_zero N
  · rw [hc, h2]
  · rw [ht, h2]

/-- C1 witness: a server with `total=2` serving one record per page makes
the engine yield 2 records and finish with `current = total = 2`. -/
theorem iteration_yields_total_witness :
    (runAll (fun _ => ⟨[.num 7], [("total", .num 2)]⟩)
        (callInvoke (fun _ => ⟨[.num 7], [("total", .num 2)]⟩)
          ⟨[], 0, 0, Option.none, []⟩ [])).1.length = 2
    ∧ (runAll (fun _ => ⟨[.num 7], [("total", .num 2)]⟩)
        (callInvoke (fun _ => ⟨[.num 7], [("total", .num 2)]⟩)
          ⟨[], 0, 0, Option.none, []⟩ [])).2.current = 2 :=
  ⟨(iteration_yields_total (fun _ => ⟨[.num 7], [("total", .num 2)]⟩)
      ⟨[], 0, 0, Option.none, []⟩ [] 2 (fun _ => by simp) (by decide)).1,
    (iteration_yields_total (fun _ => ⟨[.num 7], [("total", .num 2)]⟩)
      ⟨[], 0, 0, Option.none, []⟩ [] 2 (fun _ => by simp) (by decide)).2.1⟩

/-- C10: indexing the iterator at any position at or beyond the number of
records it can still yield returns `None` (the `next(islice(...), None)`
default) instead of raising. -/
theorem getitem_out_of_range (server : Server) (s : EngineState) (k : Nat)
    (h : (runAll server s).1.length ≤ k) :
    getItem server s k = Option.none := by
  unfold getItem
  rw [getItemAux_eq_get?]
  exact List.get?_eq_none.mpr h

/-- C10 witness: one record remains, and `result[1]` is `None`. -/
theorem getitem_out_of_range_witness :
    (runAll (fun _ => ⟨[], []⟩) ⟨[.num 1], 0, 1, Option.none, []⟩).1.length ≤ 1
    ∧ getItem (fun _ => ⟨[], []⟩) ⟨[.num 1], 0, 1, Option.none, []⟩ 1
      = Option.none :=
  ⟨by decide, getitem_out_of_range (fun _ => ⟨[], []⟩)
    ⟨[.num 1], 0, 1, Option.none, []⟩ 1 (by decide)⟩

/-- C8 witness: a 4-element list parameter upgrades the dispatch to POST
and the body carries the caller's parameters verbatim. -/
theorem get_auto_upgrade_witness :
    (Connection.get "/search"
        [("ids", .list [.num 1, .num 2, .num 3, .num 4])]).method = "POST"
    ∧ (Connection.get "/search"
        [("ids", .list [.num 1, .num 2, .num 3, .num 4])]).body
      = some [("ids", PyVal.list [.num 1, .num 2, .num 3, .num 4])] := by
  have hm : (Connection.get "/search"
      [("ids", .list [.num 1, .num 2, .num 3, .num 4])]).method = "POST" :=
    (get_auto_upgrade "/search"
      [("ids", .list [.num 1, .num 2, .num 3, .num 4])]).1.mpr
      ⟨"ids", [.num 1, .num 2, .num 3, .num 4], by simp, by simp⟩
  exact ⟨hm, (get_auto_upgrade "/search"
    [("ids", .list [.num 1, .num 2, .num 3, .num 4])]).2.2 hm⟩

